import Mathlib

set_option maxRecDepth 100000
set_option maxHeartbeats 1600000

/-!
Shallow embedding of the Dragon Rune character gallery (gallery.js, both
variants) and the character detail page (detail script).  The collection is a
list of `Character` records; the durable storage slot is an `Option String`
holding the JSON serialization; the transient cross-page selection signal is
an `Option String` holding a decimal index.
-/

namespace DragonRune

/-- An Item record as constructed by the detail page's `handleAddItem`:
string id (timestamp plus random suffix), type tag, name, optional
description, ISO timestamp. -/
structure Item where
  id : String
  type : String
  name : String
  description : String
  addedAt : String
deriving DecidableEq

/-- A Character record as constructed by `handleFormSubmit` in gallery.js:
numeric id (`Date.now()`), type tag, name, description, image reference,
bag of items, ISO creation timestamp. -/
structure Character where
  id : Nat
  type : String
  name : String
  description : String
  imageUrl : String
  bag : List Item
  createdAt : String
deriving DecidableEq

/-- The field-level validation errors `validateCharacterData` reports via
`showMessage`, one per failing check, in source order. -/
inductive GalleryError
  | noType
  | nameTooShort
  | descriptionTooShort
  | noImage
  | duplicateName
deriving DecidableEq

/-- JavaScript `String.prototype.toLowerCase` on the ASCII names this
application handles: lowercases each character. -/
def jsToLower (s : String) : String := String.mk (s.data.map Char.toLower)

/-- CharacterManager.validateCharacterData: returns the first failing check's
error, or `none` when the data is valid.  The two gallery variants differ only
in the minimum description length (10 in the first variant, 5 in the second),
passed here as `minDescLen`.  Checks run in source order: empty type, name
length, description length, empty image, then the case-insensitive duplicate
name scan over the in-memory collection. -/
def validateCharacterData (minDescLen : Nat) (chars : List Character) (data : Character) : Option GalleryError :=
  if data.type = "" then some .noType
  else if data.name.length < 2 then some .nameTooShort
  else if data.description.length < minDescLen then some .descriptionTooShort
  else if data.imageUrl = "" then some .noImage
  else if chars.any (fun ch => jsToLower ch.name == jsToLower data.name) then some .duplicateName
  else none

/-- CharacterManager.handleFormSubmit followed by addCharacter: a submission
is validated; when validation passes the candidate is pushed onto the
in-memory collection (and persisted/rendered), otherwise nothing changes.
The Bool records whether the character was added. -/
def submitCharacter (minDescLen : Nat) (chars : List Character) (data : Character) : List Character × Bool :=
  match validateCharacterData minDescLen chars data with
  | some _ => (chars, false)
  | none => (chars ++ [data], true)

/-- The field-level validation errors of the detail page's
`validateItemData`. -/
inductive ItemError
  | noType
  | nameTooShort
  | duplicateName
deriving DecidableEq

/-- CharacterDetailManager.validateItemData: empty type, then name length,
then the case-insensitive duplicate scan over the owning bag. -/
def validateItemData (bag : List Item) (data : Item) : Option ItemError :=
  if data.type = "" then some .noType
  else if data.name.length < 2 then some .nameTooShort
  else if bag.any (fun it => jsToLower it.name == jsToLower data.name) then some .duplicateName
  else none

/-- CharacterDetailManager.handleAddItem followed by addItemToBag: on
validation failure the bag is untouched; on success the item is pushed onto
the bag (and the mutated character written back and persisted). -/
def handleAddItem (bag : List Item) (data : Item) : List Item :=
  match validateItemData bag data with
  | some _ => bag
  | none => bag ++ [data]

/-- Outcome of CharacterDetailManager.removeItem: the item was removed, the
user cancelled the confirm dialog, or reading `item.name` on a missing entry
threw and the catch block surfaced an error message. -/
inductive RemoveOutcome
  | removed (it : Item)
  | cancelled
  | errorCaught
deriving DecidableEq

/-- Result of CharacterDetailManager.removeItem: the bag afterwards, what
happened, and whether saveCharacters ran. -/
structure RemoveResult where
  bag : List Item
  outcome : RemoveOutcome
  saved : Bool
deriving DecidableEq

/-- CharacterDetailManager.removeItem: reads `bag[index]`; on a missing index
the subsequent `item.name` access throws, the exception is caught and an
error is surfaced with no mutation and no save.  On a present index the
splice, write-back and save happen only after the user confirms. -/
def removeItem (bag : List Item) (index : Nat) (confirmed : Bool) : RemoveResult :=
  match bag.get? index with
  | none => ⟨bag, .errorCaught, false⟩
  | some it => if confirmed then ⟨bag.eraseIdx index, .removed it, true⟩ else ⟨bag, .cancelled, false⟩

/-! Decimal digits, as used by `index.toString()`, `parseInt` and the JSON
number serialization of character ids. -/

/-- The ASCII digit character for a digit value below ten. -/
def digitChar (d : Nat) : Char := Char.ofNat (48 + d)

/-- Little-endian decimal digits of `n`, with explicit fuel (the fuel `n`
itself is always enough since `n / 10 < n` for positive `n`). -/
def natDigitsRev : Nat → Nat → List Nat
  | 0, _ => []
  | fuel + 1, n => if n = 0 then [] else n % 10 :: natDigitsRev fuel (n / 10)

/-- The canonical decimal digit characters of a natural number, mirroring
JavaScript `Number.prototype.toString` on a nonnegative integer. -/
def natChars (n : Nat) : List Char :=
  if n = 0 then ['0'] else ((natDigitsRev n n).reverse.map digitChar)

/-- `index.toString()` as used by viewCharacter when writing the selection
signal. -/
def natToString (n : Nat) : String := String.mk (natChars n)

/-- Splits the longest leading run of ASCII digits off a character list. -/
def takeDigits : List Char → List Char × List Char
  | [] => ([], [])
  | c :: rest =>
    if c.isDigit then
      let (ds, r) := takeDigits rest
      (c :: ds, r)
    else ([], c :: rest)

/-- Numeric value of a big-endian list of ASCII digit characters. -/
def digitsVal (l : List Char) : Nat := l.foldl (fun a c => 10 * a + (c.toNat - 48)) 0

/-- Numeric value of a little-endian digit list, used to relate `natDigitsRev`
to the number it came from. -/
def valRev : List Nat → Nat
  | [] => 0
  | d :: ds => d + 10 * valRev ds

/-- Consumes a decimal natural number from the front of the input, failing
when no digit is present. -/
def parseNat (l : List Char) : Option (Nat × List Char) :=
  let p := takeDigits l
  if p.1.isEmpty then none else some (digitsVal p.1, p.2)

/-- The digit-run part of JavaScript `parseInt`: the value of the longest
leading digit run, `none` (NaN) when there is no digit. -/
def parseIntCore (l : List Char) : Option Nat :=
  let p := takeDigits l
  if p.1.isEmpty then none else some (digitsVal p.1)

/-- JavaScript `parseInt` on the character list of its argument: an optional
sign followed by a (possibly junk-terminated) digit run; `none` models NaN.
Leading whitespace and radix prefixes are not modelled. -/
def parseIntList (l : List Char) : Option Int :=
  match l with
  | [] => none
  | c :: rest =>
    if c = '-' then (parseIntCore rest).map (fun n => -(n : Int))
    else if c = '+' then (parseIntCore rest).map (fun n => (n : Int))
    else (parseIntCore (c :: rest)).map (fun n => (n : Int))

/-- JavaScript `parseInt(s)` restricted to the shapes that occur here. -/
def parseIntJS (s : String) : Option Int := parseIntList s.data

/-- JavaScript `Number(s)` composed with the `Number.isInteger` guard of the
delete handler: the empty string converts to 0, an optionally negated
all-digit string converts to its value, and anything else is rejected
(`none` models NaN or a non-integer).  Whitespace trimming, decimal points
and radix prefixes are not modelled. -/
def jsNumberInt (s : String) : Option Int :=
  match s.data with
  | [] => some 0
  | '-' :: rest => if rest.isEmpty then none else if rest.all Char.isDigit then some (-(digitsVal rest : Int)) else none
  | l => if l.all Char.isDigit then some ((digitsVal l : Int)) else none

/-! JSON serialization of the character collection, modelling
`JSON.stringify(this.characters)` on records built in the source's field
order, and `JSON.parse` specialized to that canonical shape. -/

/-- JSON string escaping for the characters `JSON.stringify` always escapes
in this data: quote, backslash, newline, tab, carriage return.  Other
characters are emitted verbatim. -/
def escapeChar (c : Char) : List Char :=
  if c = '"' then ['\\', '"']
  else if c = '\\' then ['\\', '\\']
  else if c = '\n' then ['\\', 'n']
  else if c = '\t' then ['\\', 't']
  else if c = '\r' then ['\\', 'r']
  else [c]

/-- A JSON string literal: quote, escaped body, quote. -/
def jstr (s : String) : List Char := '"' :: ((s.data.map escapeChar).flatten ++ ['"'])

/-- Character list of a Lean string literal, used for the fixed key/punctuation
runs of the canonical serialization. -/
def litChars (s : String) : List Char := s.data

/-- Opening brace and the quoted `id` key with its colon – both record shapes
start this way. -/
def objOpenId : List Char := litChars ("\x7b\"id\":")

/-- Separator before the quoted `type` key. -/
def keySepType : List Char := litChars (",\"type\":")

/-- Separator before the quoted `name` key. -/
def keySepName : List Char := litChars (",\"name\":")

/-- Separator before the quoted `description` key. -/
def keySepDescription : List Char := litChars (",\"description\":")

/-- Separator before the quoted `addedAt` key. -/
def keySepAddedAt : List Char := litChars (",\"addedAt\":")

/-- Separator before the quoted `imageUrl` key. -/
def keySepImageUrl : List Char := litChars (",\"imageUrl\":")

/-- Separator before the quoted `bag` key. -/
def keySepBag : List Char := litChars (",\"bag\":")

/-- Separator before the quoted `createdAt` key. -/
def keySepCreatedAt : List Char := litChars (",\"createdAt\":")

/-- Comma-joins the tail elements of a serialized JSON array. -/
def commaSepTail : List (List Char) → List Char
  | [] => []
  | x :: xs => ',' :: (x ++ commaSepTail xs)

/-- Comma-joins the serialized elements of a JSON array body. -/
def commaSep : List (List Char) → List Char
  | [] => []
  | x :: xs => x ++ commaSepTail xs

/-- `JSON.stringify` of one Item, keys in the construction order of
handleAddItem: id, type, name, description, addedAt. -/
def serializeItem (it : Item) : List Char :=
  objOpenId ++ jstr it.id ++ keySepType ++ jstr it.type ++ keySepName ++ jstr it.name ++
    keySepDescription ++ jstr it.description ++ keySepAddedAt ++ jstr it.addedAt ++ ['\x7d']

/-- `JSON.stringify` of a bag. -/
def serializeBag (bag : List Item) : List Char :=
  '[' :: (commaSep (bag.map serializeItem) ++ [']'])

/-- `JSON.stringify` of one Character, keys in the construction order of
handleFormSubmit: id, type, name, description, imageUrl, bag, createdAt. -/
def serializeCharacter (c : Character) : List Char :=
  objOpenId ++ natChars c.id ++ keySepType ++ jstr c.type ++ keySepName ++ jstr c.name ++
    keySepDescription ++ jstr c.description ++ keySepImageUrl ++ jstr c.imageUrl ++
    keySepBag ++ serializeBag c.bag ++ keySepCreatedAt ++ jstr c.createdAt ++ ['\x7d']

/-- `JSON.stringify` of the whole collection, the value written to the
storage slot by saveCharacters. -/
def serializeCharacters (cs : List Character) : String :=
  String.mk ('[' :: (commaSep (cs.map serializeCharacter) ++ [']']))

/-- Consumes an exact literal character run from the front of the input. -/
def parseLit : List Char → List Char → Option (List Char)
  | [], l => some l
  | _ :: _, [] => none
  | p :: ps, c :: cs => if c = p then parseLit ps cs else none

/-- Inverse of `escapeChar` on the character following a backslash. -/
def unescapeChar (e : Char) : Option Char :=
  if e = '"' then some '"'
  else if e = '\\' then some '\\'
  else if e = 'n' then some '\n'
  else if e = 't' then some '\t'
  else if e = 'r' then some '\r'
  else none

/-- Consumes the body of a JSON string up to and including the closing
quote, undoing escapes. -/
def parseStringBody : List Char → Option (List Char × List Char)
  | [] => none
  | c :: rest =>
    if c = '"' then some ([], rest)
    else if c = '\\' then
      match rest with
      | [] => none
      | e :: rest2 =>
        match unescapeChar e, parseStringBody rest2 with
        | some u, some (s, r) => some (u :: s, r)
        | _, _ => none
    else
      match parseStringBody rest with
      | some (s, r) => some (c :: s, r)
      | none => none

/-- Consumes a JSON string literal. -/
def parseJString (l : List Char) : Option (String × List Char) :=
  match l with
  | [] => none
  | c :: rest =>
    if c = '"' then
      match parseStringBody rest with
      | some (s, r) => some (String.mk s, r)
      | none => none
    else none

/-- Consumes one Item object in the canonical shape. -/
def parseItem (l : List Char) : Option (Item × List Char) :=
  match parseLit objOpenId l with
  | none => none
  | some r =>
  match parseJString r with
  | none => none
  | some (vid, r) =>
  match parseLit keySepType r with
  | none => none
  | some r =>
  match parseJString r with
  | none => none
  | some (vty, r) =>
  match parseLit keySepName r with
  | none => none
  | some r =>
  match parseJString r with
  | none => none
  | some (vname, r) =>
  match parseLit keySepDescription r with
  | none => none
  | some r =>
  match parseJString r with
  | none => none
  | some (vdesc, r) =>
  match parseLit keySepAddedAt r with
  | none => none
  | some r =>
  match parseJString r with
  | none => none
  | some (vadded, r) =>
  match parseLit ['\x7d'] r with
  | none => none
  | some r => some (⟨vid, vty, vname, vdesc, vadded⟩, r)

/-- Consumes the comma-separated elements of a nonempty JSON array up to and
including the closing bracket; the fuel bounds the number of elements and is
instantiated with the input length. -/
def parseSepList {α : Type} (p : List Char → Option (α × List Char)) : Nat → List Char → Option (List α × List Char)
  | 0, _ => none
  | fuel + 1, l =>
    match p l with
    | none => none
    | some (a, r) =>
      match r with
      | [] => none
      | c :: r2 =>
        if c = ',' then
          match parseSepList p fuel r2 with
          | none => none
          | some (tl, r3) => some (a :: tl, r3)
        else if c = ']' then some ([a], r2)
        else none

/-- Consumes a bag array. -/
def parseBag (l : List Char) : Option (List Item × List Char) :=
  match l with
  | [] => none
  | c :: r =>
    if c = '[' then
      match r with
      | [] => none
      | c2 :: r2 =>
        if c2 = ']' then some ([], r2)
        else parseSepList parseItem (r.length + 1) r
    else none

/-- Consumes one Character object in the canonical shape. -/
def parseCharacter (l : List Char) : Option (Character × List Char) :=
  match parseLit objOpenId l with
  | none => none
  | some r =>
  match parseNat r with
  | none => none
  | some (vid, r) =>
  match parseLit keySepType r with
  | none => none
  | some r =>
  match parseJString r with
  | none => none
  | some (vty, r) =>
  match parseLit keySepName r with
  | none => none
  | some r =>
  match parseJString r with
  | none => none
  | some (vname, r) =>
  match parseLit keySepDescription r with
  | none => none
  | some r =>
  match parseJString r with
  | none => none
  | some (vdesc, r) =>
  match parseLit keySepImageUrl r with
  | none => none
  | some r =>
  match parseJString r with
  | none => none
  | some (vimg, r) =>
  match parseLit keySepBag r with
  | none => none
  | some r =>
  match parseBag r with
  | none => none
  | some (vbag, r) =>
  match parseLit keySepCreatedAt r with
  | none => none
  | some r =>
  match parseJString r with
  | none => none
  | some (vcreated, r) =>
  match parseLit ['\x7d'] r with
  | none => none
  | some r => some (⟨vid, vty, vname, vdesc, vimg, vbag, vcreated⟩, r)

/-- `JSON.parse` of a stored collection, specialized to the canonical shape
this application writes; `none` models a parse failure (the thrown
SyntaxError). -/
def parseCharacters (s : String) : Option (List Character) :=
  match s.data with
  | [] => none
  | c :: r =>
    if c = '[' then
      match r with
      | [] => none
      | c2 :: r2 =>
        if c2 = ']' then (if r2 = [] then some [] else none)
        else
          match parseSepList parseCharacter (r.length + 1) r with
          | some (cs, rest) => if rest = [] then some cs else none
          | none => none
    else none

/-- loadCharacters (identical in both pages): an absent slot yields the empty
collection, and a parse failure is caught, logged and likewise yields the
empty collection — never a thrown error. -/
def loadCharacters (slot : Option String) : List Character :=
  match slot with
  | none => []
  | some s => (parseCharacters s).getD []

/-- saveCharacters: serializes the full in-memory collection into the single
storage slot. -/
def saveCharacters (cs : List Character) : String := serializeCharacters cs

/-- State of the gallery page relevant to the per-card delete handler: the
in-memory collection and the session selection signal. -/
structure DeleteResult where
  characters : List Character
  selection : Option String
deriving DecidableEq

/-- The per-card delete handler of the second gallery variant: splices the
character out, then removes the selection signal exactly when `Number(sel)`
is not an integer or is at least the new collection length; otherwise the
signal is kept as it is. -/
def deleteCharacter (chars : List Character) (index : Nat) (sel : Option String) : DeleteResult :=
  let chars' := chars.eraseIdx index
  let sel' :=
    match sel with
    | none => none
    | some s =>
      match jsNumberInt s with
      | none => none
      | some n => if (chars'.length : Int) ≤ n then none else some s
  ⟨chars', sel'⟩

/-- Terminal states of the detail page's initialization. -/
inductive DetailState
  | errorRedirect (message : String)
  | ready (c : Character)
deriving DecidableEq

/-- Result of initializeDetail: the page state, the scheduled redirect delay
in milliseconds (if any), and the storage slot afterwards (initialization
never writes it). -/
structure DetailInitResult where
  state : DetailState
  redirectDelayMs : Option Nat
  storeAfter : Option String
deriving DecidableEq

/-- JavaScript array indexing `characters[i]` for an integer index:
`undefined` (`none`) for a negative or out-of-bounds index. -/
def jsIndex (l : List Character) (i : Int) : Option Character :=
  if 0 ≤ i then l[i.toNat]? else none

/-- CharacterDetailManager.initializeDetail: an absent selection signal shows
the "No character selected" error and schedules a 2000 ms redirect; otherwise
the collection is re-read from the Store and `characters[parseInt(signal)]`
resolved — an unresolvable index shows "Character not found" with the same
redirect; a resolved character renders ready.  No path writes the Store. -/
def initializeDetail (sel : Option String) (slot : Option String) : DetailInitResult :=
  match sel with
  | none => ⟨.errorRedirect ("No character selected. Redirecting to gallery..."), some 2000, slot⟩
  | some s =>
    let chars := loadCharacters slot
    let resolved :=
      match parseIntJS s with
      | none => none
      | some i => jsIndex chars i
    match resolved with
    | none => ⟨.errorRedirect ("Character not found. Redirecting to gallery..."), some 2000, slot⟩
    | some c => ⟨.ready c, none, slot⟩

/-- The case-insensitive name keys of a bag, in order: the bag invariant is
that this list has no duplicates. -/
def bagNamesLower (bag : List Item) : List String := bag.map (fun it => jsToLower it.name)

/-! Concrete records used by witnesses and counterexamples, taken from the
spec's scenario section. -/

/-- The "Ember" character of the spec's scenarios. -/
def ember : Character :=
  ⟨1, "Dragon", "Ember", "A fierce red dragon", "dragon1.png", [], "2024-01-01T00:00:00.000Z"⟩

/-- A second character, used where two distinct records are needed. -/
def ash : Character :=
  ⟨2, "Human", "Ash", "A wandering dragon tamer", "human1.png", [], "2024-01-02T00:00:00.000Z"⟩

/-- A case-variant duplicate of Ember with otherwise valid fields. -/
def emberCase : Character :=
  ⟨3, "Dragon", "EMBER", "Another fierce red dragon", "dragon2.png", [], "2024-01-03T00:00:00.000Z"⟩

/-- A candidate that both duplicates Ember's name case-insensitively and has
a too-short description. -/
def emberShortDup : Character :=
  ⟨4, "Dragon", "ember", "shrt", "dragon3.png", [], "2024-01-04T00:00:00.000Z"⟩

/-- The "Rune of Power" item of the spec's scenarios. -/
def runePower : Item :=
  ⟨"1a", "Rune", "Rune of Power", "Increases magical abilities", "2024-01-05T00:00:00.000Z"⟩

/-- A case-variant duplicate of the "Rune of Power" item. -/
def runePowerCase : Item :=
  ⟨"2b", "Rune", "rune of power", "", "2024-01-06T00:00:00.000Z"⟩

/-! Theorems.  Shared helper lemmas come first, then one theorem per claim
with its witness or counterexample. -/

/-- Removing the element at the old length of a list from the list with that
element appended restores the original list. -/
theorem eraseIdx_concat {α : Type} (l : List α) (a : α) : (l ++ [a]).eraseIdx l.length = l := by
  induction l with
  | nil => rfl
  | cons x xs ih => simpa [List.eraseIdx] using ih

/-- Reading the appended element of a list at the old length succeeds. -/
theorem get_concat_length {α : Type} (l : List α) (a : α) : (l ++ [a]).get? l.length = some a := by
  induction l with
  | nil => rfl
  | cons x xs ih => exact ih

/-- Fuel at least the number itself suffices for `natDigitsRev` to produce
the digits of the number. -/
theorem natDigitsRev_val (fuel : Nat) : ∀ n : Nat, n ≤ fuel → valRev (natDigitsRev fuel n) = n := by
  induction fuel with
  | zero =>
    intro n h
    have h0 : n = 0 := Nat.le_zero.mp h
    subst h0
    rfl
  | succ f ih =>
    intro n h
    by_cases h0 : n = 0
    · subst h0; simp [natDigitsRev, valRev]
    · have hd : n / 10 ≤ f := by omega
      simp [natDigitsRev, h0, valRev, ih (n / 10) hd]
      omega

/-- Every entry of `natDigitsRev` is a decimal digit value. -/
theorem natDigitsRev_lt (fuel : Nat) : ∀ n d : Nat, d ∈ natDigitsRev fuel n → d < 10 := by
  induction fuel with
  | zero => intro n d h; simp [natDigitsRev] at h
  | succ f ih =>
    intro n d h
    by_cases h0 : n = 0
    · subst h0; simp [natDigitsRev] at h
    · simp only [natDigitsRev, h0, if_false, List.mem_cons] at h
      rcases h with h | h
      · omega
      · exact ih _ _ h

/-- The code point of a digit character. -/
theorem digitChar_toNat (d : Nat) (h : d < 10) : (digitChar d).toNat = 48 + d := by
  interval_cases d <;> decide

/-- Digit characters satisfy `Char.isDigit`. -/
theorem digitChar_isDigit (d : Nat) (h : d < 10) : (digitChar d).isDigit = true := by
  interval_cases d <;> decide

/-- Folding one more digit character onto the end multiplies by ten and adds
the digit. -/
theorem digitsVal_append (l : List Char) (c : Char) :
    digitsVal (l ++ [c]) = 10 * digitsVal l + (c.toNat - 48) := by
  simp [digitsVal, List.foldl_append]

/-- The big-endian digit characters of a little-endian digit list evaluate to
the same number. -/
theorem digitsVal_rev_digits (l : List Nat) (h : ∀ d ∈ l, d < 10) :
    digitsVal ((l.reverse).map digitChar) = valRev l := by
  induction l with
  | nil => rfl
  | cons d t ih =>
    have hd : d < 10 := h d (List.mem_cons_self _ _)
    have ht := ih (fun x hx => h x (List.mem_cons_of_mem _ hx))
    simp only [List.reverse_cons, List.map_append, List.map_cons, List.map_nil]
    rw [digitsVal_append, ht, digitChar_toNat d hd]
    simp [valRev]
    omega

/-- The decimal rendering of a natural number evaluates back to it. -/
theorem digitsVal_natChars (n : Nat) : digitsVal (natChars n) = n := by
  by_cases h0 : n = 0
  · subst h0; rfl
  · simp only [natChars, h0, if_false]
    rw [digitsVal_rev_digits _ (fun d hd => natDigitsRev_lt n n d hd)]
    exact natDigitsRev_val n n (le_refl n)

/-- Every character of a decimal rendering is a digit. -/
theorem natChars_digits (n : Nat) : ∀ c ∈ natChars n, c.isDigit = true := by
  intro c hc
  by_cases h0 : n = 0
  · subst h0
    simp [natChars] at hc
    subst hc
    decide
  · simp only [natChars, h0, if_false, List.mem_map] at hc
    rcases hc with ⟨d, hd, rfl⟩
    exact digitChar_isDigit d (natDigitsRev_lt n n d (List.mem_reverse.mp hd))

/-- Decimal renderings are never empty. -/
theorem natChars_ne_nil (n : Nat) : natChars n ≠ [] := by
  cases n with
  | zero => simp [natChars]
  | succ m => simp [natChars, natDigitsRev]

/-- `takeDigits` splits a digit run followed by a non-digit exactly there. -/
theorem takeDigits_append (ds : List Char) (h : ∀ c ∈ ds, c.isDigit = true)
    (c : Char) (hc : c.isDigit = false) (rest : List Char) :
    takeDigits (ds ++ c :: rest) = (ds, c :: rest) := by
  induction ds with
  | nil => simp [takeDigits, hc]
  | cons d t ih =>
    have hd : d.isDigit = true := h d (List.mem_cons_self _ _)
    have ht := ih (fun x hx => h x (List.mem_cons_of_mem _ hx))
    simp [takeDigits, hd, ht]

/-- `takeDigits` consumes an all-digit list entirely. -/
theorem takeDigits_all (ds : List Char) (h : ∀ c ∈ ds, c.isDigit = true) :
    takeDigits ds = (ds, []) := by
  induction ds with
  | nil => rfl
  | cons d t ih =>
    have hd : d.isDigit = true := h d (List.mem_cons_self _ _)
    simp [takeDigits, hd, ih (fun x hx => h x (List.mem_cons_of_mem _ hx))]

/-- `parseNat` reads a serialized natural number up to a following
non-digit. -/
theorem parseNat_round (n : Nat) (c : Char) (hc : c.isDigit = false) (rest : List Char) :
    parseNat (natChars n ++ c :: rest) = some (n, c :: rest) := by
  simp [parseNat, takeDigits_append (natChars n) (natChars_digits n) c hc rest,
        natChars_ne_nil n, digitsVal_natChars n]

/-- `parseNat` reads a serialized natural number up to a following comma. -/
theorem parseNat_round_comma (n : Nat) (rest : List Char) :
    parseNat (natChars n ++ ',' :: rest) = some (n, ',' :: rest) :=
  parseNat_round n ',' (by decide) rest

/-- The digit-run core of `parseInt` evaluates a full decimal rendering. -/
theorem parseIntCore_natChars (n : Nat) : parseIntCore (natChars n) = some n := by
  simp [parseIntCore, takeDigits_all (natChars n) (natChars_digits n),
        natChars_ne_nil n, digitsVal_natChars n]

/-- `parseInt` recovers the index written by `index.toString()`. -/
theorem parseIntJS_natToString (n : Nat) : parseIntJS (natToString n) = some (n : Int) := by
  have h1 : parseIntJS (natToString n) = parseIntList (natChars n) := rfl
  rw [h1]
  rcases hl : natChars n with _ | ⟨c, t⟩
  · exact absurd hl (natChars_ne_nil n)
  · have hc : c.isDigit = true := natChars_digits n c (hl ▸ List.mem_cons_self _ _)
    have hminus : c ≠ '-' := by
      intro h
      rw [h] at hc
      exact absurd hc (by decide)
    have hplus : c ≠ '+' := by
      intro h
      rw [h] at hc
      exact absurd hc (by decide)
    simp only [parseIntList, hminus, hplus, if_false]
    rw [← hl, parseIntCore_natChars n]
    rfl

/-- C1: a valid submission appends exactly one Character — whose type, name,
description and imageUrl are the submitted values — to the collection, while
a submission whose name case-insensitively matches an existing Character's
name is rejected with a validation error and leaves the collection
unchanged. -/
theorem c1_submit (minDescLen : Nat) (chars : List Character) (data : Character) :
    (validateCharacterData minDescLen chars data = none →
      (submitCharacter minDescLen chars data).1 = chars ++ [data] ∧
      (submitCharacter minDescLen chars data).1.length = chars.length + 1) ∧
    ((∃ c ∈ chars, jsToLower c.name = jsToLower data.name) →
      validateCharacterData minDescLen chars data ≠ none ∧
      (submitCharacter minDescLen chars data).1 = chars ∧
      (submitCharacter minDescLen chars data).2 = false) := by
  constructor
  · intro h
    simp [submitCharacter, h]
  · rintro ⟨c, hc, hn⟩
    have hany : chars.any (fun ch => jsToLower ch.name == jsToLower data.name) = true :=
      List.any_eq_true.mpr ⟨c, hc, by simp [hn]⟩
    have hv : validateCharacterData minDescLen chars data ≠ none := by
      unfold validateCharacterData
      split_ifs <;> simp_all
    rcases he : validateCharacterData minDescLen chars data with _ | e
    · exact absurd he hv
    · exact ⟨by simp, by simp [submitCharacter, he], by simp [submitCharacter, he]⟩

/-- Witness for c1_submit: submitting Ember to the empty collection adds it,
and submitting the case-variant duplicate EMBER afterwards is rejected. -/
theorem c1_submit_witness :
    validateCharacterData 5 ([] : List Character) ember = none ∧
    (submitCharacter 5 [] ember).1 = [ember] ∧
    (∃ c ∈ [ember], jsToLower c.name = jsToLower emberCase.name) ∧
    (submitCharacter 5 [ember] emberCase).1 = [ember] :=
  ⟨by decide, ((c1_submit 5 [] ember).1 (by decide)).1, by decide,
   ((c1_submit 5 [ember] emberCase).2 (by decide)).2.1⟩

/-- C2 counterexample: a candidate that both duplicates an existing name
case-insensitively and has a too-short description is reported with the
description error, not the duplicate-name error, in both gallery variants —
the duplicate-name check runs last, not as part of rule (2). -/
theorem c2_counterexample :
    validateCharacterData 10 [ember] emberShortDup = some .descriptionTooShort ∧
    validateCharacterData 5 [ember] emberShortDup = some .descriptionTooShort ∧
    (∃ c ∈ [ember], jsToLower c.name = jsToLower emberShortDup.name) ∧
    emberShortDup.description.length < 5 ∧
    validateCharacterData 5 [ember] emberShortDup ≠ some .duplicateName := by
  decide

/-- C2 amended: validation checks rules in the source order — (1) type
non-empty; (2) name length ≥ 2; (3) description length ≥ minimum; (4) image
reference non-empty; (5) name case-insensitively unique — and the first
failing rule determines the reported error, so a candidate with both a
duplicate name and a too-short description gets the description error. -/
theorem c2_validation_order (minDescLen : Nat) (chars : List Character) (data : Character) :
    (validateCharacterData minDescLen chars data = some .noType ↔ data.type = "") ∧
    (validateCharacterData minDescLen chars data = some .nameTooShort ↔
      data.type ≠ "" ∧ data.name.length < 2) ∧
    (validateCharacterData minDescLen chars data = some .descriptionTooShort ↔
      data.type ≠ "" ∧ ¬ data.name.length < 2 ∧ data.description.length < minDescLen) ∧
    (validateCharacterData minDescLen chars data = some .noImage ↔
      data.type ≠ "" ∧ ¬ data.name.length < 2 ∧ ¬ data.description.length < minDescLen ∧
        data.imageUrl = "") ∧
    (validateCharacterData minDescLen chars data = some .duplicateName ↔
      data.type ≠ "" ∧ ¬ data.name.length < 2 ∧ ¬ data.description.length < minDescLen ∧
        data.imageUrl ≠ "" ∧
        chars.any (fun ch => jsToLower ch.name == jsToLower data.name) = true) ∧
    (validateCharacterData minDescLen chars data = none ↔
      data.type ≠ "" ∧ ¬ data.name.length < 2 ∧ ¬ data.description.length < minDescLen ∧
        data.imageUrl ≠ "" ∧
        chars.any (fun ch => jsToLower ch.name == jsToLower data.name) = false) := by
  unfold validateCharacterData
  split_ifs with h1 h2 h3 h4 h5 <;> simp_all

/-- Witness for c2_validation_order: the characterization evaluated on the
duplicate-name, short-description candidate yields the description error. -/
theorem c2_validation_order_witness :
    validateCharacterData 5 [ember] emberShortDup = some .descriptionTooShort :=
  ((c2_validation_order 5 [ember] emberShortDup).2.2.1).mpr (by decide)

/-- C7: adding a valid Item to a bag and then removing it (with confirmation)
at the index where it was inserted returns the bag to its prior content and
length. -/
theorem c7_add_remove (bag : List Item) (data : Item)
    (h : validateItemData bag data = none) :
    removeItem (handleAddItem bag data) bag.length true = ⟨bag, .removed data, true⟩ ∧
    (removeItem (handleAddItem bag data) bag.length true).bag.length = bag.length := by
  have h1 : handleAddItem bag data = bag ++ [data] := by simp [handleAddItem, h]
  have h2 : removeItem (bag ++ [data]) bag.length true = ⟨bag, .removed data, true⟩ := by
    unfold removeItem
    rw [get_concat_length]
    simp [eraseIdx_concat]
  constructor
  · rw [h1, h2]
  · rw [h1, h2]

/-- Witness for c7_add_remove: the Rune of Power added to the empty bag and
removed at index 0 leaves the empty bag. -/
theorem c7_add_remove_witness :
    validateItemData [] runePower = none ∧
    removeItem (handleAddItem [] runePower) 0 true = ⟨[], .removed runePower, true⟩ :=
  ⟨by decide, (c7_add_remove [] runePower (by decide)).1⟩

/-- C8: handleAddItem preserves the invariant that no two Items of a bag
share a case-insensitive name, and an addition whose name matches an existing
bag Item's name case-insensitively is rejected, leaving the bag unchanged. -/
theorem c8_bag_unique (bag : List Item) (data : Item) :
    ((bagNamesLower bag).Nodup → (bagNamesLower (handleAddItem bag data)).Nodup) ∧
    ((∃ it ∈ bag, jsToLower it.name = jsToLower data.name) → handleAddItem bag data = bag) := by
  rcases hv : validateItemData bag data with _ | e
  · have hany : bag.any (fun it => jsToLower it.name == jsToLower data.name) = false := by
      unfold validateItemData at hv
      split_ifs at hv with h1 h2 h3 <;> simp_all
    have hall : ∀ it ∈ bag, ¬ jsToLower it.name = jsToLower data.name := by
      intro it hit
      have := List.any_eq_false.mp hany it hit
      simpa using this
    constructor
    · intro hnd
      have hadd : handleAddItem bag data = bag ++ [data] := by simp [handleAddItem, hv]
      rw [hadd]
      simp only [bagNamesLower, List.map_append, List.map_cons, List.map_nil]
      rw [List.nodup_append]
      refine ⟨hnd, by simp, ?_⟩
      intro x hx hx2
      simp only [List.mem_singleton] at hx2
      simp only [bagNamesLower, List.mem_map] at hx
      rcases hx with ⟨it, hit, hval⟩
      exact hall it hit (by rw [hval, hx2])
    · rintro ⟨it, hit, heq⟩
      exact absurd heq (hall it hit)
  · constructor
    · intro h
      simpa [handleAddItem, hv] using h
    · intro _
      simp [handleAddItem, hv]

/-- Witness for c8_bag_unique: the spec scenario — adding the case-variant
"rune of power" to a bag holding "Rune of Power" is rejected, and the
invariant holds after the attempt. -/
theorem c8_bag_unique_witness :
    (bagNamesLower [runePower]).Nodup ∧
    (bagNamesLower (handleAddItem [runePower] runePowerCase)).Nodup ∧
    (∃ it ∈ [runePower], jsToLower it.name = jsToLower runePowerCase.name) ∧
    handleAddItem [runePower] runePowerCase = [runePower] :=
  ⟨by decide, (c8_bag_unique [runePower] runePowerCase).1 (by decide), by decide,
   (c8_bag_unique [runePower] runePowerCase).2 (by decide)⟩

/-- C9: removeItem at an index outside the bag's bounds mutates nothing and
saves nothing: reading the missing Item raises, the exception is caught and
an error message is surfaced while the bag is left unchanged. -/
theorem c9_remove_out_of_bounds (bag : List Item) (index : Nat) (confirmed : Bool)
    (h : bag.length ≤ index) :
    removeItem bag index confirmed = ⟨bag, .errorCaught, false⟩ := by
  unfold removeItem
  rw [List.get?_eq_none.mpr h]

/-- Witness for c9_remove_out_of_bounds: removing index 5 from a one-item bag
is caught and changes nothing. -/
theorem c9_remove_out_of_bounds_witness :
    [runePower].length ≤ 5 ∧
    removeItem [runePower] 5 true = ⟨[runePower], .errorCaught, false⟩ :=
  ⟨by decide, c9_remove_out_of_bounds [runePower] 5 true (by decide)⟩

/-- C3 counterexample: deleting position 0 of a two-character collection with
an outstanding selection signal "0" keeps the signal even though it now
designates a different Character than the one it was written for — the stale
signal is not invalidated. -/
theorem c3_counterexample :
    (deleteCharacter [ember, ash] 0 (some "0")).selection = some "0" ∧
    (deleteCharacter [ember, ash] 0 (some "0")).characters.get? 0 = some ash ∧
    ash ≠ ember := by
  decide

/-- C3 amended: the delete handler always splices the Character out, and it
removes the selection signal exactly when `Number(signal)` is not an integer
or is at least the new collection length; an in-bounds signal is retained
even when it now designates a different Character than before the delete. -/
theorem c3_delete_signal (chars : List Character) (index : Nat) (s : String) :
    (deleteCharacter chars index (some s)).characters = chars.eraseIdx index ∧
    ((deleteCharacter chars index (some s)).selection = none ↔
      jsNumberInt s = none ∨
        ∃ n : Int, jsNumberInt s = some n ∧ ((chars.eraseIdx index).length : Int) ≤ n) := by
  refine ⟨rfl, ?_⟩
  rcases h : jsNumberInt s with _ | n
  · simp [deleteCharacter, h]
  · simp only [deleteCharacter, h]
    by_cases hle : ((chars.eraseIdx index).length : Int) ≤ n
    · simp [hle]
    · simp [hle]

/-- Witness for c3_delete_signal at the counterexample input: the collection
shrinks to the second character and the in-bounds signal survives. -/
theorem c3_delete_signal_witness :
    (deleteCharacter [ember, ash] 0 (some "0")).characters = [ash] ∧
    ((deleteCharacter [ember, ash] 0 (some "0")).selection = none ↔
      jsNumberInt "0" = none ∨
        ∃ n : Int, jsNumberInt "0" = some n ∧ ((([ember, ash] : List Character).eraseIdx 0).length : Int) ≤ n) :=
  c3_delete_signal [ember, ash] 0 "0"

/-- C4: initializeDetail with an absent selection signal or an out-of-bounds
position reaches the terminal error state with the 2000 ms redirect to the
gallery and an unchanged Store; with an in-bounds position it resolves and
renders the Character stored at that position. -/
theorem c4_initialize_detail (slot : Option String) :
    (initializeDetail none slot =
      ⟨.errorRedirect ("No character selected. Redirecting to gallery..."), some 2000, slot⟩) ∧
    (∀ pos : Nat, (loadCharacters slot).length ≤ pos →
      initializeDetail (some (natToString pos)) slot =
        ⟨.errorRedirect ("Character not found. Redirecting to gallery..."), some 2000, slot⟩) ∧
    (∀ pos : Nat, ∀ c : Character, (loadCharacters slot)[pos]? = some c →
      initializeDetail (some (natToString pos)) slot = ⟨.ready c, none, slot⟩) := by
  refine ⟨rfl, ?_, ?_⟩
  · intro pos hpos
    have hnone : (loadCharacters slot)[pos]? = none := List.getElem?_eq_none hpos
    simp [initializeDetail, parseIntJS_natToString, jsIndex, hnone]
  · intro pos c hc
    simp [initializeDetail, parseIntJS_natToString, jsIndex, hc]

/-- Witness for c4_initialize_detail on the spec scenario: position 0 of the
persisted one-element collection resolves Ember; position 5 reaches the
NotFound redirect with the Store untouched. -/
theorem c4_initialize_detail_witness :
    (loadCharacters (some (saveCharacters [ember])))[0]? = some ember ∧
    initializeDetail (some (natToString 0)) (some (saveCharacters [ember])) =
      ⟨.ready ember, none, some (saveCharacters [ember])⟩ ∧
    (loadCharacters (some (saveCharacters [ember]))).length ≤ 5 ∧
    initializeDetail (some (natToString 5)) (some (saveCharacters [ember])) =
      ⟨.errorRedirect ("Character not found. Redirecting to gallery..."), some 2000,
        some (saveCharacters [ember])⟩ :=
  ⟨by decide, (c4_initialize_detail _).2.2 0 ember (by decide), by decide,
   (c4_initialize_detail _).2.1 5 (by decide)⟩

/-- C10: a selection signal that does not parse to a number (parseInt yields
NaN) leads to the NotFound error state with the redirect and an unchanged
Store — the same outcome as an out-of-bounds position, with no uncaught
failure. -/
theorem c10_non_numeric_signal (slot : Option String) (s : String)
    (h : parseIntJS s = none) :
    initializeDetail (some s) slot =
      ⟨.errorRedirect ("Character not found. Redirecting to gallery..."), some 2000, slot⟩ := by
  simp [initializeDetail, h]

/-- Witness for c10_non_numeric_signal: the signal "abc" on a persisted
one-element collection. -/
theorem c10_non_numeric_signal_witness :
    parseIntJS "abc" = none ∧
    initializeDetail (some "abc") (some (saveCharacters [ember])) =
      ⟨.errorRedirect ("Character not found. Redirecting to gallery..."), some 2000,
        some (saveCharacters [ember])⟩ :=
  ⟨by decide, c10_non_numeric_signal _ _ (by decide)⟩

/-- A string rebuilt from its character data is itself. -/
theorem string_mk_data (s : String) : String.mk s.data = s := rfl

/-- `parseLit` consumes exactly its pattern. -/
theorem parseLit_self (p : List Char) : ∀ rest : List Char, parseLit p (p ++ rest) = some rest := by
  induction p with
  | nil => intro rest; rfl
  | cons c t ih => intro rest; simp [parseLit, ih]

/-- `parseStringBody` undoes `escapeChar` up to the closing quote. -/
theorem parseStringBody_round (l : List Char) (rest : List Char) :
    parseStringBody ((l.map escapeChar).flatten ++ ('"' :: rest)) = some (l, rest) := by
  induction l with
  | nil =>
    rw [List.map_nil, List.flatten_nil, List.nil_append, parseStringBody.eq_def]
    simp
  | cons c t ih =>
    simp only [List.map_cons, List.flatten_cons, List.append_assoc]
    by_cases h1 : c = '"'
    · subst h1; simp [escapeChar, parseStringBody, unescapeChar, ih]
    · by_cases h2 : c = '\\'
      · subst h2; simp [escapeChar, parseStringBody, unescapeChar, ih]
      · by_cases h3 : c = '\n'
        · subst h3; simp [escapeChar, parseStringBody, unescapeChar, ih]
        · by_cases h4 : c = '\t'
          · subst h4; simp [escapeChar, parseStringBody, unescapeChar, ih]
          · by_cases h5 : c = '\r'
            · subst h5; simp [escapeChar, parseStringBody, unescapeChar, ih]
            · rw [show escapeChar c = [c] by simp [escapeChar, h1, h2, h3, h4, h5]]
              rw [List.cons_append, parseStringBody.eq_def]
              simp [h1, h2, ih]

/-- `parseJString` undoes `jstr`. -/
theorem parseJString_round (s : String) (rest : List Char) :
    parseJString (jstr s ++ rest) = some (s, rest) := by
  have h : jstr s ++ rest = '"' :: ((s.data.map escapeChar).flatten ++ ('"' :: rest)) := by
    simp [jstr]
  rw [h]
  simp [parseJString, parseStringBody_round, string_mk_data]

/-- `parseLit` on a single expected character. -/
theorem parseLit_single (c : Char) (rest : List Char) : parseLit [c] (c :: rest) = some rest := by
  simp [parseLit]

/-- `parseItem` undoes `serializeItem`. -/
theorem parseItem_round (it : Item) (rest : List Char) :
    parseItem (serializeItem it ++ rest) = some (it, rest) := by
  simp only [serializeItem, List.append_assoc]
  simp only [parseItem, parseLit_self, parseLit_single, parseJString_round]

/-- The `type` key separator starts with the comma ending the id number. -/
theorem keySepType_cons : keySepType = ',' :: litChars ("\"type\":") := rfl

/-- `parseNat` reads a serialized id up to the following `type` key. -/
theorem parseNat_keySep (n : Nat) (y : List Char) :
    parseNat (natChars n ++ (keySepType ++ y)) = some (n, keySepType ++ y) := by
  rw [keySepType_cons, List.cons_append]
  exact parseNat_round_comma n _

/-- `commaSepTail` yields at least one character per element when the
elements are nonempty. -/
theorem commaSepTail_length (ls : List (List Char)) (h : ∀ x ∈ ls, x ≠ []) :
    ls.length ≤ (commaSepTail ls).length := by
  induction ls with
  | nil => simp [commaSepTail]
  | cons y ys ih =>
    have hy : y ≠ [] := h y (by simp)
    have hlen : 0 < y.length := List.length_pos.mpr hy
    have ht := ih (fun x hx => h x (by simp [hx]))
    simp only [commaSepTail, List.length_cons, List.length_append]
    omega

/-- `commaSep` yields at least one character per element when the elements
are nonempty. -/
theorem commaSep_length (ls : List (List Char)) (h : ∀ x ∈ ls, x ≠ []) :
    ls.length ≤ (commaSep ls).length := by
  cases ls with
  | nil => simp [commaSep]
  | cons y ys =>
    have hy : y ≠ [] := h y (by simp)
    have hlen : 0 < y.length := List.length_pos.mpr hy
    have ht := commaSepTail_length ys (fun x hx => h x (by simp [hx]))
    simp only [commaSep, List.length_cons, List.length_append]
    omega

/-- A serialized Item is never the empty character list. -/
theorem serializeItem_ne_nil (it : Item) : serializeItem it ≠ [] := by
  have h6 : objOpenId.length = 6 := by decide
  intro hc
  have hlen := congrArg List.length hc
  simp only [serializeItem, List.length_append, h6, List.length_nil] at hlen
  omega

/-- A serialized Character is never the empty character list. -/
theorem serializeCharacter_ne_nil (c : Character) : serializeCharacter c ≠ [] := by
  have h6 : objOpenId.length = 6 := by decide
  intro hc
  have hlen := congrArg List.length hc
  simp only [serializeCharacter, List.length_append, h6, List.length_nil] at hlen
  omega

/-- `parseSepList` undoes `commaSep` over any element parser that undoes the
element serializer, given fuel at least the number of elements. -/
theorem parseSepList_round {α : Type} (p : List Char → Option (α × List Char))
    (ser : α → List Char) (hp : ∀ a rest, p (ser a ++ rest) = some (a, rest)) :
    ∀ (l : List α) (fuel : Nat) (rest : List Char), l ≠ [] → l.length ≤ fuel →
      parseSepList p fuel (commaSep (l.map ser) ++ (']' :: rest)) = some (l, rest) := by
  intro l
  induction l with
  | nil => intro fuel rest h _; exact absurd rfl h
  | cons a t ih =>
    intro fuel rest _ hf
    cases fuel with
    | zero => simp at hf
    | succ f =>
      cases t with
      | nil =>
        simp [commaSep, commaSepTail, parseSepList, hp]
      | cons b t2 =>
        have hih := ih f rest (by simp) (by simpa using Nat.succ_le_succ_iff.mp hf)
        simp only [commaSep, commaSepTail, List.map_cons, List.append_assoc, List.cons_append] at hih
        simp only [commaSep, commaSepTail, List.map_cons, List.append_assoc, List.cons_append]
        rw [parseSepList]
        rw [hp a (',' :: (ser b ++ (commaSepTail (t2.map ser) ++ (']' :: rest))))]
        simp [hih]

/-- A serialized Item starts with the opening brace. -/
theorem serializeItem_head (it : Item) : ∃ z, serializeItem it = '\x7b' :: z := by
  unfold serializeItem
  rw [show objOpenId = '\x7b' :: litChars ("\"id\":") from rfl]
  simp only [List.cons_append]
  exact ⟨_, rfl⟩

/-- A serialized Character starts with the opening brace. -/
theorem serializeCharacter_head (c : Character) : ∃ z, serializeCharacter c = '\x7b' :: z := by
  unfold serializeCharacter
  rw [show objOpenId = '\x7b' :: litChars ("\"id\":") from rfl]
  simp only [List.cons_append]
  exact ⟨_, rfl⟩

/-- `parseBag` on a nonempty array defers to `parseSepList`. -/
theorem parseBag_step (c2 : Char) (r2 : List Char) (h : ¬ c2 = ']') :
    parseBag ('[' :: (c2 :: r2)) = parseSepList parseItem ((c2 :: r2).length + 1) (c2 :: r2) := by
  simp [parseBag, h]

/-- `parseBag` undoes `serializeBag`. -/
theorem parseBag_round (bag : List Item) (rest : List Char) :
    parseBag (serializeBag bag ++ rest) = some (bag, rest) := by
  cases bag with
  | nil =>
    have h : serializeBag ([] : List Item) ++ rest = '[' :: (']' :: rest) := by
      simp [serializeBag, commaSep]
    rw [h]
    simp [parseBag]
  | cons a t =>
    obtain ⟨z, hz⟩ := serializeItem_head a
    have hcs : commaSep ((a :: t).map serializeItem) =
        '\x7b' :: (z ++ commaSepTail (t.map serializeItem)) := by
      rw [List.map_cons, commaSep, hz, List.cons_append]
    have hinput : serializeBag (a :: t) ++ rest =
        '[' :: ('\x7b' :: (z ++ (commaSepTail (t.map serializeItem) ++ (']' :: rest)))) := by
      unfold serializeBag
      rw [hcs]
      simp only [List.cons_append, List.append_assoc, List.nil_append]
    rw [hinput, parseBag_step '\x7b' _ (by decide)]
    rw [show '\x7b' :: (z ++ (commaSepTail (t.map serializeItem) ++ (']' :: rest))) =
          commaSep ((a :: t).map serializeItem) ++ (']' :: rest) by
        rw [hcs]
        simp only [List.cons_append, List.append_assoc]]
    refine parseSepList_round parseItem serializeItem parseItem_round (a :: t) _ rest (by simp) ?_
    have h1 := commaSep_length ((a :: t).map serializeItem) ?_
    · simp only [List.length_map, List.length_cons] at h1
      simp only [List.length_append, List.length_cons]
      omega
    · intro x hx
      rcases List.mem_map.mp hx with ⟨i, _, rfl⟩
      exact serializeItem_ne_nil i

/-- `parseCharacter` undoes `serializeCharacter`. -/
theorem parseCharacter_round (c : Character) (rest : List Char) :
    parseCharacter (serializeCharacter c ++ rest) = some (c, rest) := by
  simp only [serializeCharacter, List.append_assoc]
  simp only [parseCharacter, parseLit_self, parseLit_single, parseNat_keySep,
    parseJString_round, parseBag_round]

/-- `parseCharacters` on a nonempty array defers to `parseSepList` and
requires full consumption. -/
theorem parseCharacters_step (c2 : Char) (r2 : List Char) (h : ¬ c2 = ']') :
    parseCharacters (String.mk ('[' :: (c2 :: r2))) =
      (match parseSepList parseCharacter ((c2 :: r2).length + 1) (c2 :: r2) with
       | some (cs, rest) => if rest = [] then some cs else none
       | none => none) := by
  simp [parseCharacters, h]

/-- `parseCharacters` undoes `serializeCharacters` — the JSON round-trip at
the heart of the persistence model. -/
theorem parseCharacters_round (cs : List Character) :
    parseCharacters (serializeCharacters cs) = some cs := by
  cases cs with
  | nil => decide
  | cons a t =>
    obtain ⟨z, hz⟩ := serializeCharacter_head a
    have hcs : commaSep ((a :: t).map serializeCharacter) =
        '\x7b' :: (z ++ commaSepTail (t.map serializeCharacter)) := by
      rw [List.map_cons, commaSep, hz, List.cons_append]
    have hinput : serializeCharacters (a :: t) =
        String.mk ('[' :: ('\x7b' :: (z ++ (commaSepTail (t.map serializeCharacter) ++ (']' :: []))))) := by
      unfold serializeCharacters
      rw [hcs]
      simp only [List.cons_append, List.append_assoc, List.nil_append]
    rw [hinput, parseCharacters_step '\x7b' _ (by decide)]
    rw [show '\x7b' :: (z ++ (commaSepTail (t.map serializeCharacter) ++ (']' :: []))) =
          commaSep ((a :: t).map serializeCharacter) ++ (']' :: []) by
        rw [hcs]
        simp only [List.cons_append, List.append_assoc]]
    rw [parseSepList_round parseCharacter serializeCharacter parseCharacter_round (a :: t) _ []
          (by simp) ?_]
    · rfl
    · have h1 := commaSep_length ((a :: t).map serializeCharacter) ?_
      · simp only [List.length_map, List.length_cons] at h1
        simp only [List.length_append, List.length_cons]
        omega
      · intro x hx
        rcases List.mem_map.mp hx with ⟨i, _, rfl⟩
        exact serializeCharacter_ne_nil i

/-- C5: persisting the loaded collection unchanged is a fixed point of the
serialize/deserialize cycle — the state written by `save(load())` is
byte-identical to the state a second `save(load())` writes. -/
theorem c5_save_load_idempotent (slot : Option String) :
    saveCharacters (loadCharacters (some (saveCharacters (loadCharacters slot)))) =
      saveCharacters (loadCharacters slot) := by
  simp [saveCharacters, loadCharacters, parseCharacters_round]

/-- C6: load returns the persisted collection when the slot holds a parseable
serialized array, and the empty collection when the slot is absent or its
content fails to parse — the parse failure is swallowed, never thrown to the
caller. -/
theorem c6_load (slot : Option String) :
    (slot = none → loadCharacters slot = []) ∧
    (∀ s, slot = some s → parseCharacters s = none → loadCharacters slot = []) ∧
    (∀ s cs, slot = some s → parseCharacters s = some cs → loadCharacters slot = cs) := by
  refine ⟨?_, ?_, ?_⟩
  · rintro rfl; rfl
  · rintro s rfl h; simp [loadCharacters, h]
  · rintro s cs rfl h; simp [loadCharacters, h]

/-- Witness for c6_load: a corrupt slot loads as empty and a freshly saved
one-element collection loads back. -/
theorem c6_load_witness :
    parseCharacters "corrupt" = none ∧
    loadCharacters (some "corrupt") = [] ∧
    parseCharacters (saveCharacters [ember]) = some [ember] ∧
    loadCharacters (some (saveCharacters [ember])) = [ember] :=
  ⟨by decide, (c6_load (some "corrupt")).2.1 "corrupt" rfl (by decide), by decide,
   (c6_load (some (saveCharacters [ember]))).2.2 (saveCharacters [ember]) [ember] rfl (by decide)⟩

end DragonRune
